import Mathlib

/-!
Shallow embedding of the lobster VPS-panel plan catalog (`plan.go`, given as
`src/unnamed/part_000`) and support-ticket system (`src/support.go`).

SQL tables become lists of row records; each Go function that wraps a SQL
statement becomes a Lean function over an explicit database state.  `NOW()`
becomes the `now` field of the state; `LastInsertId` becomes an explicit
auto-increment counter in the state.  Errors produced through the
localization service `L` or through `fmt.Errorf` become an explicit error
type.
-/

namespace Lobster

/-- Error values: `L.Error(key)` becomes `key`, `L.Errorf(key, param)` becomes
`keyParam`, and a `fmt.Errorf`-style plain error becomes `raw`. -/
inductive LError where
  | key : String → LError
  | keyParam : String → String → LError
  | raw : String → LError
deriving Repr, DecidableEq

/-- SQL `ORDER BY k` (ascending) over an in-memory table: a stable sort by the
natural-number key `k`. -/
def sqlOrderBy (k : α → Nat) (l : List α) : List α :=
  List.insertionSort (fun a b => k a ≤ k b) l

/-- A row of the `plans` table. -/
structure PlanRow where
  id : Nat
  name : String
  price : Int
  ram : Nat
  cpu : Nat
  storage : Nat
  bandwidth : Nat
  global : Bool
  enabled : Bool
deriving Repr, DecidableEq

/-- A row of the `region_plans` table. -/
structure RegionPlanRow where
  plan_id : Nat
  region : String
  identification : String
deriving Repr, DecidableEq

/-- A row of the `plan_metadata` table. -/
structure PlanMetadataRow where
  plan_id : Nat
  k : String
  v : String
deriving Repr, DecidableEq

/-- The relational state touched by the plan catalog.  `nextPlanId` models the
auto-increment id used by `LastInsertId`. -/
structure PlanDB where
  plans : List PlanRow
  region_plans : List RegionPlanRow
  plan_metadata : List PlanMetadataRow
  nextPlanId : Nat
deriving Repr, DecidableEq

/-- The Go `Plan` struct produced by `planListHelper`'s `rows.Scan`. -/
structure Plan where
  Id : Nat
  Name : String
  Price : Int
  Ram : Nat
  Cpu : Nat
  Storage : Nat
  Bandwidth : Nat
  Global : Bool
  Enabled : Bool
  Identification : String
deriving Repr, DecidableEq

/-- `planListHelper`'s per-row scan: a `plans` row plus the selected
identification column become a `Plan`. -/
def scanPlan (p : PlanRow) (identification : String) : Plan :=
  ⟨p.id, p.name, p.price, p.ram, p.cpu, p.storage, p.bandwidth,
    p.global, p.enabled, identification⟩

/-- `planList`: `SELECT ..., '' FROM plans ORDER BY id`. -/
def planList (db : PlanDB) : List Plan :=
  (sqlOrderBy PlanRow.id db.plans).map (fun p => scanPlan p "")

/-- The rows of `plans LEFT JOIN region_plans ON plans.id = region_plans.plan_id
AND region_plans.region = ?`: each plan row paired with each matching binding's
identification, or with `none` when the plan has no binding for the region. -/
def leftJoinRegion (db : PlanDB) (region : String) :
    List (PlanRow × Option String) :=
  db.plans.flatMap (fun p =>
    let hits := db.region_plans.filter
      (fun rp => rp.plan_id == p.id && rp.region == region)
    if hits.isEmpty then [(p, none)]
    else hits.map (fun rp => (p, some rp.identification)))

/-- `planListRegion`: the left join above, restricted by
`WHERE plans.enabled = 1 AND (plans.global = 1 OR region_plans.identification
IS NOT NULL)`, ordered by id, with `IFNULL(region_plans.identification, '')`
as the scanned identification. -/
def planListRegion (db : PlanDB) (region : String) : List Plan :=
  (sqlOrderBy (fun x => x.1.id)
      ((leftJoinRegion db region).filter
        (fun x => x.1.enabled && (x.1.global || x.2.isSome)))).map
    (fun x => scanPlan x.1 (x.2.getD ""))

/-- `planCreate`: inserts a `plans` row (with the caller-supplied `global`
flag and the table-default `enabled`) and returns `LastInsertId`. -/
def planCreate (db : PlanDB) (name : String) (price : Int)
    (ram cpu storage bandwidth : Nat) (global : Bool) : PlanDB × Nat :=
  let row : PlanRow :=
    ⟨db.nextPlanId, name, price, ram, cpu, storage, bandwidth, global, true⟩
  (⟨db.plans ++ [row], db.region_plans, db.plan_metadata, db.nextPlanId + 1⟩,
    db.nextPlanId)

/-- `planDelete`: `DELETE FROM plans WHERE id = ?`. -/
def planDelete (db : PlanDB) (planId : Nat) : PlanDB :=
  ⟨db.plans.filter (fun p => !(p.id == planId)),
    db.region_plans, db.plan_metadata, db.nextPlanId⟩

/-- `planEnable`: `UPDATE plans SET enabled = 1 WHERE id = ?`. -/
def planEnable (db : PlanDB) (planId : Nat) : PlanDB :=
  ⟨db.plans.map (fun p => if p.id == planId then { p with enabled := true } else p),
    db.region_plans, db.plan_metadata, db.nextPlanId⟩

/-- `planDisable`: `UPDATE plans SET enabled = 0 WHERE id = ?`. -/
def planDisable (db : PlanDB) (planId : Nat) : PlanDB :=
  ⟨db.plans.map (fun p => if p.id == planId then { p with enabled := false } else p),
    db.region_plans, db.plan_metadata, db.nextPlanId⟩

/-! ## Region providers -/

/-- A provider plan as returned by a region's `VMIPlans.PlanList`. -/
structure ProviderPlan where
  Name : String
  Price : Int
  Ram : Nat
  Cpu : Nat
  Storage : Nat
  Bandwidth : Nat
  Identification : String
deriving Repr, DecidableEq

/-- A registered VM interface.  `basic` is a provider that does not implement
the optional `VMIPlans` capability; `withPlans r` implements it and its
`PlanList()` call returns `r` (a plan list, or an error). -/
inductive VMI where
  | basic : VMI
  | withPlans : Except LError (List ProviderPlan) → VMI
deriving Repr

/-- The `regionInterfaces` table: region name to VM interface. -/
def RegionInterfaces := List (String × VMI)

/-- Map lookup `regionInterfaces[region]`. -/
def riLookup (ri : RegionInterfaces) (region : String) : Option VMI :=
  match ri.find? (fun x => x.1 == region) with
  | some x => some x.2
  | none => none

/-- The SQL `WHERE plan_id = ? AND region = ?` predicate on `region_plans`. -/
def pairPred (planId : Nat) (region : String) : RegionPlanRow → Bool :=
  fun rp => rp.plan_id == planId && rp.region == region

/-- The SQL `WHERE region = ? AND identification = ?` predicate on
`region_plans`. -/
def identPred (region ident : String) : RegionPlanRow → Bool :=
  fun rp => rp.region == region && rp.identification == ident

/-- `planAssociateRegion`: rejects an unrecognized region, then upserts the
`region_plans` binding — `UPDATE` when `COUNT(*)` of rows for the
(plan, region) pair is exactly 1, `INSERT` otherwise. -/
def planAssociateRegion (ri : RegionInterfaces) (db : PlanDB)
    (planId : Nat) (region : String) (identification : String) :
    Except LError PlanDB :=
  if (riLookup ri region).isNone then
    .error (.raw ("specified region " ++ region ++ " does not exist"))
  else
    let count := (db.region_plans.filter (pairPred planId region)).length
    if count == 1 then
      .ok ⟨db.plans,
        db.region_plans.map (fun rp =>
          if pairPred planId region rp then
            { rp with identification := identification }
          else rp),
        db.plan_metadata, db.nextPlanId⟩
    else
      .ok ⟨db.plans,
        db.region_plans ++ [⟨planId, region, identification⟩],
        db.plan_metadata, db.nextPlanId⟩

/-- `planDeassociateRegion`: `DELETE FROM region_plans WHERE plan_id = ? AND
region = ?`. -/
def planDeassociateRegion (db : PlanDB) (planId : Nat) (region : String) :
    PlanDB :=
  ⟨db.plans,
    db.region_plans.filter (fun rp => !(rp.plan_id == planId && rp.region == region)),
    db.plan_metadata, db.nextPlanId⟩

/-- One iteration of `planAutopopulate`'s loop body: if no `region_plans` row
in this region already carries the provider plan's identification, create a
non-global plan and associate it (the Go code discards `planAssociateRegion`'s
return value, so an error there leaves only the created plan). -/
def autopopStep (ri : RegionInterfaces) (region : String)
    (db : PlanDB) (pp : ProviderPlan) : PlanDB :=
  let count :=
    (db.region_plans.filter (identPred region pp.Identification)).length
  if count == 0 then
    let created := planCreate db pp.Name pp.Price pp.Ram pp.Cpu pp.Storage
      pp.Bandwidth false
    match planAssociateRegion ri created.1 created.2 region pp.Identification with
    | .ok db2 => db2
    | .error _ => created.1
  else db

/-- `planAutopopulate`: rejects an unrecognized region or a provider without
the `VMIPlans` capability, propagates a `PlanList()` error, and otherwise runs
`autopopStep` over the provider's plan list. -/
def planAutopopulate (ri : RegionInterfaces) (db : PlanDB) (region : String) :
    Except LError PlanDB :=
  match riLookup ri region with
  | none => .error (.raw ("specified region " ++ region ++ " does not exist"))
  | some .basic => .error (.key "region_plans_unsupported")
  | some (.withPlans (.error e)) => .error e
  | some (.withPlans (.ok plans)) =>
      .ok (plans.foldl (autopopStep ri region) db)

/-! ## Ticket system data model -/

/-- A row of the `tickets` table.  Timestamps are abstract ticks. -/
structure TicketRow where
  id : Nat
  user_id : Nat
  name : String
  status : String
  time : Nat
  modify_time : Nat
deriving Repr, DecidableEq

/-- A row of the `ticket_messages` table. -/
structure TicketMessageRow where
  id : Nat
  ticket_id : Nat
  staff : Bool
  message : String
  time : Nat
deriving Repr, DecidableEq

/-- Modelled from the spec: the user record consulted by `userDetails` is not
part of the excerpt; per the spec an account carries a status that stays
`new` until initial provisioning completes.  Only `id` and `status` are
consulted by the ticket code. -/
structure UserRow where
  id : Nat
  status : String
deriving Repr, DecidableEq

/-- The relational state touched by the ticket system, with auto-increment
counters for the two tables and the current `NOW()` tick. -/
structure TicketDB where
  users : List UserRow
  tickets : List TicketRow
  ticket_messages : List TicketMessageRow
  nextTicketId : Nat
  nextMessageId : Nat
  now : Nat
deriving Repr, DecidableEq

/-- The Go `TicketMessage` struct. -/
structure TicketMessage where
  Id : Nat
  Staff : Bool
  Message : String
  Time : Nat
deriving Repr, DecidableEq

/-- The Go `Ticket` struct. -/
structure Ticket where
  Id : Nat
  UserId : Nat
  Name : String
  Status : String
  Time : Nat
  ModifyTime : Nat
  Messages : List TicketMessage
deriving Repr, DecidableEq

/-- `ticketListHelper`'s per-row scan of a `tickets` row (messages not yet
loaded). -/
def scanTicket (t : TicketRow) : Ticket :=
  ⟨t.id, t.user_id, t.name, t.status, t.time, t.modify_time, []⟩

/-- Modelled from the spec: `userDetails` lives outside the excerpt; it is the
lookup of the caller's account record by id. -/
def userDetails (db : TicketDB) (userId : Nat) : Option UserRow :=
  db.users.find? (fun u => u.id == userId)

/-- Modelled from the spec: the `cfg.Default.AdminEmail` configuration value
interpolated into the account-not-provisioned error. -/
def adminEmail : String := "support@lobster.example"

/-- The canned body of the delayed automatic staff reply. -/
def autoReplyMessage : String :=
  "We have resolved this issue. Have a good day.\n\nRegards,\nLobster Staff"

/-- A delayed background reply scheduled by a `go func` in `ticketOpen` or
`ticketReply`: after the 20-second sleep it performs
`ticketReply db userId ticketId message staff`. -/
structure PendingReply where
  userId : Nat
  ticketId : Nat
  message : String
  staff : Bool
deriving Repr, DecidableEq

/-- The message-loading loop of `ticketDetails`: `SELECT id, staff, message,
time FROM ticket_messages WHERE ticket_id = ? ORDER BY id`. -/
def messagesThread (db : TicketDB) (ticketId : Nat) : List TicketMessage :=
  (sqlOrderBy TicketMessageRow.id
    (db.ticket_messages.filter (fun m => m.ticket_id == ticketId))).map
    (fun m => ⟨m.id, m.staff, m.message, m.time⟩)

/-- `ticketDetails`: selects the ticket by id (staff) or by owner and id
(customer); returns it only when exactly one row matches, with its message
thread `ORDER BY id`. -/
def ticketDetails (db : TicketDB) (userId ticketId : Nat) (staff : Bool) :
    Option Ticket :=
  match if staff then db.tickets.filter (fun t => t.id == ticketId)
    else db.tickets.filter (fun t => t.user_id == userId && t.id == ticketId) with
  | [t] => some { scanTicket t with Messages := messagesThread db ticketId }
  | _ => none

/-- Outcome of `ticketOpen`: the returned (ticket id or error), the database
state, and the delayed background replies scheduled by the call. -/
structure OpenOutcome where
  result : Except LError Nat
  db : TicketDB
  scheduled : List PendingReply
deriving Repr

/-- Outcome of `ticketReply`. -/
structure ReplyOutcome where
  result : Except LError Unit
  db : TicketDB
  scheduled : List PendingReply
deriving Repr

/-- `ticketOpen`: validates subject/body and (for customers) account
provisioning, inserts the ticket row with status `open` and the first
message, and for a customer-opened ticket schedules the delayed automatic
staff reply. -/
def ticketOpen (db : TicketDB) (userId : Nat) (name message : String)
    (staff : Bool) : OpenOutcome :=
  if name = "" ∨ message = "" then
    ⟨.error (.key "subject_message_empty"), db, []⟩
  else if message.length > 16384 then
    ⟨.error (.keyParam "message_too_long" "15,000"), db, []⟩
  else
    let user := userDetails db userId
    if !staff && (user.isNone || (user.map UserRow.status).getD "" == "new") then
      ⟨.error (.keyParam "ticket_for_support" adminEmail), db, []⟩
    else
      let ticketId := db.nextTicketId
      let db1 : TicketDB :=
        { db with
          tickets := db.tickets ++ [⟨ticketId, userId, name, "open", db.now, db.now⟩],
          nextTicketId := ticketId + 1 }
      let db2 : TicketDB :=
        { db1 with
          ticket_messages :=
            db1.ticket_messages ++ [⟨db1.nextMessageId, ticketId, staff, message, db1.now⟩],
          nextMessageId := db1.nextMessageId + 1 }
      ⟨.ok ticketId, db2,
        if staff then [] else [⟨userId, ticketId, autoReplyMessage, true⟩]⟩

/-- `ticketReply`: rejects an empty body or an inaccessible ticket, appends
the message, sets the status to `answered` for a staff reply and `open` for a
customer reply, bumps the modify time, and for a customer reply schedules the
delayed automatic staff reply. -/
def ticketReply (db : TicketDB) (userId ticketId : Nat) (message : String)
    (staff : Bool) : ReplyOutcome :=
  if message = "" then
    ⟨.error (.key "message_empty"), db, []⟩
  else
    match ticketDetails db userId ticketId staff with
    | none => ⟨.error (.key "invalid_ticket"), db, []⟩
    | some _ =>
        let db1 : TicketDB :=
          { db with
            ticket_messages :=
              db.ticket_messages ++ [⟨db.nextMessageId, ticketId, staff, message, db.now⟩],
            nextMessageId := db.nextMessageId + 1 }
        let newStatus := if staff then "answered" else "open"
        let db2 : TicketDB :=
          { db1 with
            tickets := db1.tickets.map (fun t =>
              if t.id == ticketId then
                { t with status := newStatus, modify_time := db1.now }
              else t) }
        ⟨.ok (), db2,
          if staff then [] else [⟨userId, ticketId, autoReplyMessage, true⟩]⟩

/-- `ticketClose`: `UPDATE tickets SET modify_time = NOW(), status = 'closed'
WHERE id = ? AND user_id = ?`. -/
def ticketClose (db : TicketDB) (userId ticketId : Nat) : TicketDB :=
  { db with
    tickets := db.tickets.map (fun t =>
      if t.id == ticketId && t.user_id == userId then
        { t with status := "closed", modify_time := db.now }
      else t) }

/-- Firing a scheduled background reply: the `go func` body after its sleep
calls `ticketReply` with the captured arguments. -/
def runPendingReply (db : TicketDB) (p : PendingReply) : ReplyOutcome :=
  ticketReply db p.userId p.ticketId p.message p.staff

/-! ## Sample states used by the witnesses -/

/-- A small ticket database: one provisioned user 7 owning open ticket 1. -/
def dbW : TicketDB :=
  ⟨[⟨7, "active"⟩], [⟨1, 7, "Help", "open", 0, 0⟩],
    [⟨1, 1, false, "hi", 0⟩], 2, 2, 5⟩

/-- Like `dbW` but the ticket is closed. -/
def dbClosed : TicketDB :=
  ⟨[⟨7, "active"⟩], [⟨1, 7, "Help", "closed", 0, 0⟩],
    [⟨1, 1, false, "hi", 0⟩], 2, 2, 5⟩

/-- A subject body of exactly 16384 characters. -/
def msg16384 : String := ⟨List.replicate 16384 'a'⟩

/-- A subject body of 16385 characters. -/
def msg16385 : String := ⟨List.replicate 16385 'a'⟩

/-- A `region_plans` binding for the (plan, region) pair exists. -/
def hasBinding (db : PlanDB) (planId : Nat) (region : String) : Prop :=
  ∃ rp ∈ db.region_plans, rp.plan_id = planId ∧ rp.region = region

/-- A concrete plan catalog: plan 1 non-global bound in us-east, plan 2
global, plan 3 global but disabled. -/
def dbPlans : PlanDB :=
  ⟨[⟨1, "Starter", 500, 512, 1, 10, 100, false, true⟩,
    ⟨2, "Global", 900, 1024, 2, 20, 200, true, true⟩,
    ⟨3, "Off", 100, 1, 1, 1, 1, true, false⟩],
   [⟨1, "us-east", "ext-123"⟩], [], 4⟩

/-- A region table with one plan-enumerating provider. -/
def riW : RegionInterfaces :=
  [("us-east", VMI.withPlans (.ok
    [⟨"S", 500, 512, 1, 10, 100, "ext-1"⟩]))]

/-- A catalog whose plan 1 already carries a us-east binding. -/
def dbP1 : PlanDB :=
  ⟨[⟨1, "Starter", 500, 512, 1, 10, 100, false, true⟩],
   [⟨1, "us-east", "ext-9"⟩], [], 2⟩

/-- Some `region_plans` row binds `ident` in `region`. -/
def identBound (db : PlanDB) (region ident : String) : Prop :=
  ∃ rp ∈ db.region_plans, rp.region = region ∧ rp.identification = ident

/-! ## Lemmas and claims -/

theorem sqlOrderBy_pairwise (k : α → Nat) (l : List α) :
    (sqlOrderBy k l).Pairwise (fun a b => k a ≤ k b) := by
  haveI : IsTotal α (fun a b => k a ≤ k b) := ⟨fun a b => Nat.le_total _ _⟩
  haveI : IsTrans α (fun a b => k a ≤ k b) := ⟨fun _ _ _ h h' => Nat.le_trans h h'⟩
  exact List.sorted_insertionSort _ l

theorem mem_sqlOrderBy (k : α → Nat) (l : List α) (x : α) :
    x ∈ sqlOrderBy k l ↔ x ∈ l :=
  List.mem_insertionSort _

/-! ## Ticket system lemmas -/

theorem ticketReply_shape (db : TicketDB) (userId ticketId : Nat)
    (message : String) (staff : Bool) (tk : Ticket)
    (hm : ¬ message = "")
    (hd : ticketDetails db userId ticketId staff = some tk) :
    ticketReply db userId ticketId message staff =
      ⟨.ok (),
        { db with
          tickets := db.tickets.map (fun t =>
            if t.id == ticketId then
              { t with status := if staff then "answered" else "open",
                       modify_time := db.now }
            else t),
          ticket_messages :=
            db.ticket_messages ++ [⟨db.nextMessageId, ticketId, staff, message, db.now⟩],
          nextMessageId := db.nextMessageId + 1 },
        if staff then [] else [⟨userId, ticketId, autoReplyMessage, true⟩]⟩ := by
  simp [ticketReply, hm, hd]

theorem ticketReply_ok (db : TicketDB) (userId ticketId : Nat)
    (message : String) (staff : Bool)
    (hm : ¬ message = "")
    (hd : (ticketDetails db userId ticketId staff).isSome) :
    (ticketReply db userId ticketId message staff).result = .ok () := by
  rcases Option.isSome_iff_exists.1 hd with ⟨tk, htk⟩
  rw [ticketReply_shape db userId ticketId message staff tk hm htk]

theorem ticketReply_status (db : TicketDB) (userId ticketId : Nat)
    (message : String) (staff : Bool)
    (h : (ticketReply db userId ticketId message staff).result = .ok ()) :
    ∀ t ∈ (ticketReply db userId ticketId message staff).db.tickets,
      t.id = ticketId → t.status = (if staff then "answered" else "open") := by
  by_cases hm : message = ""
  · simp [ticketReply, hm] at h
  · cases hd : ticketDetails db userId ticketId staff with
    | none => simp [ticketReply, hm, hd] at h
    | some tk =>
        rw [ticketReply_shape db userId ticketId message staff tk hm hd]
        intro t ht hid
        rcases List.mem_map.1 ht with ⟨s, _, rfl⟩
        by_cases hs : (s.id == ticketId) = true
        · simp [hs]
        · simp only [hs, if_false] at hid ⊢
          exact absurd (beq_iff_eq.2 hid) (by simpa using hs)

theorem ticketOpen_shape (db : TicketDB) (userId : Nat)
    (name message : String) (staff : Bool)
    (h1 : ¬ (name = "" ∨ message = ""))
    (h2 : ¬ message.length > 16384)
    (h3 : (!staff && ((userDetails db userId).isNone ||
      ((userDetails db userId).map UserRow.status).getD "" == "new")) = false) :
    ticketOpen db userId name message staff =
      ⟨.ok db.nextTicketId,
        { db with
          tickets := db.tickets ++
            [⟨db.nextTicketId, userId, name, "open", db.now, db.now⟩],
          nextTicketId := db.nextTicketId + 1,
          ticket_messages := db.ticket_messages ++
            [⟨db.nextMessageId, db.nextTicketId, staff, message, db.now⟩],
          nextMessageId := db.nextMessageId + 1 },
        if staff then [] else [⟨userId, db.nextTicketId, autoReplyMessage, true⟩]⟩ := by
  simp [ticketOpen, h1, h2, h3]

theorem ticketOpen_ok_row (db : TicketDB) (userId : Nat)
    (name message : String) (staff : Bool) (tid : Nat)
    (h : (ticketOpen db userId name message staff).result = .ok tid) :
    tid = db.nextTicketId ∧
    ∃ t ∈ (ticketOpen db userId name message staff).db.tickets,
      t.id = tid ∧ t.user_id = userId ∧ t.name = name ∧ t.status = "open" := by
  by_cases h1 : name = "" ∨ message = ""
  · simp [ticketOpen, h1] at h
  · by_cases h2 : message.length > 16384
    · simp [ticketOpen, h1, h2] at h
    · by_cases h3 : (!staff && ((userDetails db userId).isNone ||
        ((userDetails db userId).map UserRow.status).getD "" == "new")) = true
      · simp [ticketOpen, h1, h2, h3] at h
      · rw [ticketOpen_shape db userId name message staff h1 h2
          (Bool.not_eq_true _ ▸ h3)] at h ⊢
        simp only [OpenOutcome.result] at h
        obtain rfl : db.nextTicketId = tid := by simpa using h
        refine ⟨rfl, ⟨db.nextTicketId, userId, name, "open", db.now, db.now⟩, ?_, rfl, rfl, rfl, rfl⟩
        simp

theorem ticketOpen_scheduled (db : TicketDB) (userId : Nat)
    (name message : String) (staff : Bool) :
    ∀ p ∈ (ticketOpen db userId name message staff).scheduled,
      p.staff = true ∧ p.message = autoReplyMessage ∧ staff = false := by
  cases staff with
  | true =>
      by_cases h1 : name = "" ∨ message = ""
      · simp [ticketOpen, h1]
      · by_cases h2 : message.length > 16384
        · simp [ticketOpen, h1, h2]
        · simp [ticketOpen, h1, h2]
  | false =>
      by_cases h1 : name = "" ∨ message = ""
      · simp [ticketOpen, h1]
      · by_cases h2 : message.length > 16384
        · simp [ticketOpen, h1, h2]
        · by_cases h3 : ((userDetails db userId).isNone ||
            ((userDetails db userId).map UserRow.status).getD "" == "new") = true
          · simp [ticketOpen, h1, h2, h3]
          · simp [ticketOpen, h1, h2, h3]

theorem ticketReply_scheduled (db : TicketDB) (userId ticketId : Nat)
    (message : String) (staff : Bool) :
    ∀ p ∈ (ticketReply db userId ticketId message staff).scheduled,
      p.staff = true ∧ p.message = autoReplyMessage ∧ staff = false := by
  cases staff with
  | true =>
      by_cases h1 : message = ""
      · simp [ticketReply, h1]
      · cases hd : ticketDetails db userId ticketId true with
        | none => simp [ticketReply, h1, hd]
        | some tk => simp [ticketReply, h1, hd]
  | false =>
      by_cases h1 : message = ""
      · simp [ticketReply, h1]
      · cases hd : ticketDetails db userId ticketId false with
        | none => simp [ticketReply, h1, hd]
        | some tk => simp [ticketReply, h1, hd]

theorem ticketReply_staff_scheduled (db : TicketDB) (userId ticketId : Nat)
    (message : String) :
    (ticketReply db userId ticketId message true).scheduled = [] := by
  unfold ticketReply
  split
  · rfl
  · split
    · rfl
    · rfl

theorem msg16384_length : msg16384.length = 16384 := by
  show (List.replicate 16384 'a').length = 16384
  rw [List.length_replicate]

theorem msg16385_length : msg16385.length = 16385 := by
  show (List.replicate 16385 'a').length = 16385
  rw [List.length_replicate]

theorem msg16385_ne : msg16385 ≠ "" := by
  intro h
  have h0 : msg16385.length = 0 := by rw [h]; rfl
  rw [msg16385_length] at h0
  omega

/-! ## Ticket claims -/

/-- C2: `ticketOpen` creates the ticket with status `open`; a successful
`ticketReply` with `staff = true` sets status `answered`, with
`staff = false` sets status `open`; `ticketClose` by the ticket's owner sets
status `closed` regardless of the prior status. -/
theorem claim_C2_ticket_status_transitions
    (db : TicketDB) (userId ticketId : Nat) (name message : String)
    (staff : Bool) :
    (∀ tid, (ticketOpen db userId name message staff).result = .ok tid →
      ∃ t ∈ (ticketOpen db userId name message staff).db.tickets,
        t.id = tid ∧ t.user_id = userId ∧ t.status = "open") ∧
    ((ticketReply db userId ticketId message true).result = .ok () →
      ∀ t ∈ (ticketReply db userId ticketId message true).db.tickets,
        t.id = ticketId → t.status = "answered") ∧
    ((ticketReply db userId ticketId message false).result = .ok () →
      ∀ t ∈ (ticketReply db userId ticketId message false).db.tickets,
        t.id = ticketId → t.status = "open") ∧
    (∀ t ∈ (ticketClose db userId ticketId).tickets,
      t.id = ticketId → t.user_id = userId → t.status = "closed") := by
  refine ⟨?_, ?_, ?_, ?_⟩
  · intro tid h
    obtain ⟨_, t, ht, h1, h2, _, h4⟩ :=
      ticketOpen_ok_row db userId name message staff tid h
    exact ⟨t, ht, h1, h2, h4⟩
  · intro h t ht hid
    simpa using ticketReply_status db userId ticketId message true h t ht hid
  · intro h t ht hid
    simpa using ticketReply_status db userId ticketId message false h t ht hid
  · intro t ht hid huid
    unfold ticketClose at ht
    rcases List.mem_map.1 ht with ⟨s, _, rfl⟩
    by_cases hc : (s.id == ticketId && s.user_id == userId) = true
    · simp [hc]
    · rw [if_neg hc] at hid huid
      exact absurd
        (by simp [hid, huid] : (s.id == ticketId && s.user_id == userId) = true) hc

/-- C2 witness: concrete transitions on the one-ticket database. -/
theorem claim_C2_witness :
    (∃ t ∈ (ticketOpen dbW 7 "Help" "hi" false).db.tickets,
      t.id = 2 ∧ t.user_id = 7 ∧ t.status = "open") ∧
    (∀ t ∈ (ticketReply dbW 7 1 "thanks" true).db.tickets,
      t.id = 1 → t.status = "answered") ∧
    (∀ t ∈ (ticketReply dbW 7 1 "thanks" false).db.tickets,
      t.id = 1 → t.status = "open") ∧
    (∀ t ∈ (ticketClose dbW 7 1).tickets,
      t.id = 1 → t.user_id = 7 → t.status = "closed") :=
  ⟨(claim_C2_ticket_status_transitions dbW 7 1 "Help" "hi" false).1 2 rfl,
   (claim_C2_ticket_status_transitions dbW 7 1 "Help" "thanks" false).2.1 rfl,
   (claim_C2_ticket_status_transitions dbW 7 1 "Help" "thanks" false).2.2.1 rfl,
   (claim_C2_ticket_status_transitions dbW 7 1 "Help" "thanks" false).2.2.2⟩

/-- C3: `ticketOpen` rejects an empty subject or body with the empty-input
error and a body longer than 16384 with the too-long error, succeeds at
exactly 16384 for a provisioned caller, and rejects a non-staff caller whose
account is missing or still `new` with the account-not-provisioned error. -/
theorem claim_C3_ticket_open_validation
    (db : TicketDB) (userId : Nat) (name message : String) (staff : Bool) :
    ((name = "" ∨ message = "") →
      (ticketOpen db userId name message staff).result =
        .error (.key "subject_message_empty")) ∧
    (¬ (name = "" ∨ message = "") → message.length > 16384 →
      (ticketOpen db userId name message staff).result =
        .error (.keyParam "message_too_long" "15,000")) ∧
    (name ≠ "" → message.length = 16384 →
      (∃ u, userDetails db userId = some u ∧ u.status ≠ "new") →
      (ticketOpen db userId name message staff).result = .ok db.nextTicketId) ∧
    (staff = false →
      (userDetails db userId = none ∨
        ∃ u, userDetails db userId = some u ∧ u.status = "new") →
      name ≠ "" → message ≠ "" → ¬ message.length > 16384 →
      (ticketOpen db userId name message staff).result =
        .error (.keyParam "ticket_for_support" adminEmail)) := by
  refine ⟨?_, ?_, ?_, ?_⟩
  · intro h
    simp [ticketOpen, h]
  · intro h1 h2
    simp [ticketOpen, h1, h2]
  · rintro hn hlen ⟨u, hu, hs⟩
    have hm : ¬ message = "" := fun h => by
      rw [h] at hlen
      simp [String.length] at hlen
    have h1 : ¬ (name = "" ∨ message = "") := not_or.2 ⟨hn, hm⟩
    have h2 : ¬ message.length > 16384 := by omega
    have h3 : (!staff && ((userDetails db userId).isNone ||
        ((userDetails db userId).map UserRow.status).getD "" == "new")) = false := by
      simp [hu, hs]
    rw [ticketOpen_shape db userId name message staff h1 h2 h3]
  · intro hstaff hprov hn hm hlen
    subst hstaff
    rcases hprov with hnone | ⟨u, hu, hnew⟩
    · simp [ticketOpen, hn, hm, hlen, hnone]
    · simp [ticketOpen, hn, hm, hlen, hu, hnew]

/-- C3 witness: the four validation outcomes on concrete inputs, including
the 16384-character boundary. -/
theorem claim_C3_witness :
    (ticketOpen dbW 7 "Help" "" false).result =
      .error (.key "subject_message_empty") ∧
    (ticketOpen dbW 7 "Help" msg16385 false).result =
      .error (.keyParam "message_too_long" "15,000") ∧
    (ticketOpen dbW 7 "Help" msg16384 false).result = .ok 2 ∧
    (ticketOpen dbW 9 "Help" "hi" false).result =
      .error (.keyParam "ticket_for_support" adminEmail) :=
  ⟨(claim_C3_ticket_open_validation dbW 7 "Help" "" false).1 (Or.inr rfl),
   (claim_C3_ticket_open_validation dbW 7 "Help" msg16385 false).2.1
     (by simp [msg16385_ne])
     (by rw [msg16385_length]; omega),
   (claim_C3_ticket_open_validation dbW 7 "Help" msg16384 false).2.2.1
     (by decide) msg16384_length ⟨⟨7, "active"⟩, rfl, by decide⟩,
   (claim_C3_ticket_open_validation dbW 9 "Help" "hi" false).2.2.2
     rfl (Or.inl rfl) (by decide) (by decide) (by decide)⟩

/-- C9: a reply on a closed ticket is permitted — whenever the closed ticket
is accessible to the caller and the message is non-empty, `ticketReply`
succeeds and applies the ordinary status rule (`answered` for staff, `open`
otherwise). -/
theorem claim_C9_reply_on_closed_ticket
    (db : TicketDB) (userId ticketId : Nat) (message : String) (staff : Bool)
    (t : TicketRow) (ht : t ∈ db.tickets) (hid : t.id = ticketId)
    (hclosed : t.status = "closed")
    (hacc : (ticketDetails db userId ticketId staff).isSome = true)
    (hm : message ≠ "") :
    (ticketReply db userId ticketId message staff).result = .ok () ∧
    ∀ s ∈ (ticketReply db userId ticketId message staff).db.tickets,
      s.id = ticketId → s.status = (if staff then "answered" else "open") := by
  have hok := ticketReply_ok db userId ticketId message staff hm hacc
  exact ⟨hok, ticketReply_status db userId ticketId message staff hok⟩

/-- C9 witness: a customer reply on their own closed ticket succeeds and
reopens it. -/
theorem claim_C9_witness :
    (ticketReply dbClosed 7 1 "again" false).result = .ok () ∧
    ∀ s ∈ (ticketReply dbClosed 7 1 "again" false).db.tickets,
      s.id = 1 → s.status = (if false then "answered" else "open") :=
  claim_C9_reply_on_closed_ticket dbClosed 7 1 "again" false
    ⟨1, 7, "Help", "closed", 0, 0⟩ (by simp [dbClosed]) rfl rfl rfl
    (by decide)

/-- C10: the too-long rejection in `ticketOpen` carries the literal parameter
`"15,000"` although the enforced limit is 16384, and the limit applies to
`ticketOpen` only — `ticketReply` succeeds for a message of any length. -/
theorem claim_C10_too_long_literal
    (db : TicketDB) (userId ticketId : Nat) (name message : String)
    (staff : Bool) :
    (¬ (name = "" ∨ message = "") → message.length > 16384 →
      (ticketOpen db userId name message staff).result =
        .error (.keyParam "message_too_long" "15,000")) ∧
    (message ≠ "" → (ticketDetails db userId ticketId staff).isSome = true →
      (ticketReply db userId ticketId message staff).result = .ok ()) := by
  refine ⟨?_, ?_⟩
  · intro h1 h2
    simp [ticketOpen, h1, h2]
  · intro hm hd
    exact ticketReply_ok db userId ticketId message staff hm hd

/-- C10 witness: the 16385-character body is rejected by `ticketOpen` with
the `"15,000"`-formatted error yet accepted by `ticketReply`. -/
theorem claim_C10_witness :
    (ticketOpen dbW 7 "Help" msg16385 false).result =
      .error (.keyParam "message_too_long" "15,000") ∧
    (ticketReply dbW 7 1 msg16385 false).result = .ok () :=
  ⟨(claim_C10_too_long_literal dbW 7 1 "Help" msg16385 false).1
     (by simp [msg16385_ne]) (by rw [msg16385_length]; omega),
   (claim_C10_too_long_literal dbW 7 1 "Help" msg16385 false).2
     msg16385_ne rfl⟩

/-- C6 counterexample: on the concrete one-ticket database, the delayed
staff-authored auto-reply scheduled by a customer reply fires successfully
but schedules no further delayed reply, refuting the claim that every
auto-reply re-arms another. -/
theorem claim_C6_counterexample :
    (ticketReply dbW 7 1 "still broken" false).scheduled =
      [⟨7, 1, autoReplyMessage, true⟩] ∧
    (runPendingReply (ticketReply dbW 7 1 "still broken" false).db
      ⟨7, 1, autoReplyMessage, true⟩).result = .ok () ∧
    (runPendingReply (ticketReply dbW 7 1 "still broken" false).db
      ⟨7, 1, autoReplyMessage, true⟩).scheduled = [] :=
  ⟨rfl, rfl, rfl⟩

/-- C6 amended: every delayed automatic staff-authored reply marks the ticket
`answered` but re-arms nothing; a delayed auto-reply is scheduled only by a
customer-authored `ticketOpen` or `ticketReply`, so each customer message
triggers exactly one auto-reply rather than a self-sustaining chain. -/
theorem claim_C6_auto_reply_one_shot :
    (∀ (db : TicketDB) (p : PendingReply), p.staff = true →
      (runPendingReply db p).scheduled = [] ∧
      ((runPendingReply db p).result = .ok () →
        ∀ t ∈ (runPendingReply db p).db.tickets,
          t.id = p.ticketId → t.status = "answered")) ∧
    (∀ (db : TicketDB) (userId : Nat) (name message : String) (staff : Bool),
      ∀ p ∈ (ticketOpen db userId name message staff).scheduled,
        p.staff = true ∧ p.message = autoReplyMessage ∧ staff = false) ∧
    (∀ (db : TicketDB) (userId ticketId : Nat) (message : String)
        (staff : Bool),
      ∀ p ∈ (ticketReply db userId ticketId message staff).scheduled,
        p.staff = true ∧ p.message = autoReplyMessage ∧ staff = false) := by
  refine ⟨?_, ticketOpen_scheduled, ticketReply_scheduled⟩
  intro db p hps
  unfold runPendingReply
  rw [hps]
  refine ⟨ticketReply_staff_scheduled _ _ _ _, fun h t ht hid => ?_⟩
  simpa using ticketReply_status db p.userId p.ticketId p.message true h t ht hid

/-- C6 amended witness: the fired auto-reply on the concrete database re-arms
nothing and marks the ticket answered. -/
theorem claim_C6_witness :
    (runPendingReply dbW ⟨7, 1, autoReplyMessage, true⟩).scheduled = [] ∧
    ∀ t ∈ (runPendingReply dbW ⟨7, 1, autoReplyMessage, true⟩).db.tickets,
      t.id = 1 → t.status = "answered" :=
  ⟨(claim_C6_auto_reply_one_shot.1 dbW ⟨7, 1, autoReplyMessage, true⟩ rfl).1,
   (claim_C6_auto_reply_one_shot.1 dbW ⟨7, 1, autoReplyMessage, true⟩ rfl).2 rfl⟩

/-- When the keys of a list are distinct, filtering for the key of a member
returns exactly that member. -/
theorem filter_key_eq_singleton {α : Type} (key : α → Nat) {l : List α}
    (hnd : (l.map key).Nodup) {t : α} (ht : t ∈ l) (f : α → Bool)
    (hf : ∀ s, f s = true ↔ key s = key t) : l.filter f = [t] := by
  induction l with
  | nil => cases ht
  | cons a rest ih =>
      have hnd' : key a ∉ rest.map key ∧ (rest.map key).Nodup := by
        simpa using hnd
      rcases List.mem_cons.1 ht with rfl | hmem
      · have hfa : f t = true := (hf t).2 rfl
        have hrest : rest.filter f = [] := by
          rw [List.filter_eq_nil_iff]
          intro s hs hfs
          exact hnd'.1 ((hf s).1 hfs ▸ List.mem_map_of_mem key hs)
        simp [List.filter_cons, hfa, hrest]
      · have hfa : f a = false := by
          cases hh : f a
          · rfl
          · exact absurd ((hf a).1 hh ▸ List.mem_map_of_mem key hmem) hnd'.1
        simp only [List.filter_cons, hfa, Bool.false_eq_true, if_false]
        exact ih hnd'.2 hmem

theorem messagesThread_pairwise (db : TicketDB) (ticketId : Nat) :
    ((messagesThread db ticketId).map TicketMessage.Id).Pairwise (· ≤ ·) := by
  unfold messagesThread
  rw [List.map_map, List.pairwise_map]
  exact sqlOrderBy_pairwise TicketMessageRow.id _

theorem messagesThread_mem (db : TicketDB) (ticketId : Nat)
    (m : TicketMessageRow) (hm : m ∈ db.ticket_messages)
    (hid : m.ticket_id = ticketId) :
    (⟨m.id, m.staff, m.message, m.time⟩ : TicketMessage) ∈
      messagesThread db ticketId := by
  unfold messagesThread
  exact List.mem_map_of_mem _
    ((mem_sqlOrderBy _ _ _).2 (List.mem_filter.2 ⟨hm, by simp [hid]⟩))

theorem messagesThread_src (db : TicketDB) (ticketId : Nat)
    (tm : TicketMessage) (htm : tm ∈ messagesThread db ticketId) :
    ∃ m ∈ db.ticket_messages, m.ticket_id = ticketId ∧
      tm = ⟨m.id, m.staff, m.message, m.time⟩ := by
  unfold messagesThread at htm
  rcases List.mem_map.1 htm with ⟨m, hm, rfl⟩
  rcases List.mem_filter.1 ((mem_sqlOrderBy _ _ _).1 hm) with ⟨hmem, hpred⟩
  exact ⟨m, hmem, by simpa using hpred, rfl⟩

/-- C7: `ticketDetails` returns the single matching ticket with its thread
ordered by ascending message id; a customer caller gets a ticket only when
they own it, a staff caller gets any existing ticket. -/
theorem claim_C7_ticket_details
    (db : TicketDB) (userId ticketId : Nat) (staff : Bool)
    (hnd : (db.tickets.map TicketRow.id).Nodup) :
    (∀ tk, ticketDetails db userId ticketId staff = some tk →
      (∃ t ∈ db.tickets, t.id = ticketId ∧
        (staff = false → t.user_id = userId) ∧
        tk.Id = t.id ∧ tk.UserId = t.user_id ∧ tk.Name = t.name ∧
        tk.Status = t.status) ∧
      (tk.Messages.map TicketMessage.Id).Pairwise (· ≤ ·) ∧
      (∀ m ∈ db.ticket_messages, m.ticket_id = ticketId →
        (⟨m.id, m.staff, m.message, m.time⟩ : TicketMessage) ∈ tk.Messages) ∧
      (∀ tm ∈ tk.Messages, ∃ m ∈ db.ticket_messages,
        m.ticket_id = ticketId ∧ tm = ⟨m.id, m.staff, m.message, m.time⟩)) ∧
    (staff = true → ∀ t ∈ db.tickets, t.id = ticketId →
      ∃ tk, ticketDetails db userId ticketId staff = some tk ∧
        tk.UserId = t.user_id) ∧
    (staff = false → ∀ tk, ticketDetails db userId ticketId staff = some tk →
      tk.UserId = userId) := by
  have hmain : ∀ tk, ticketDetails db userId ticketId staff = some tk →
      (∃ t ∈ db.tickets, t.id = ticketId ∧
        (staff = false → t.user_id = userId) ∧
        tk.Id = t.id ∧ tk.UserId = t.user_id ∧ tk.Name = t.name ∧
        tk.Status = t.status) ∧
      (tk.Messages.map TicketMessage.Id).Pairwise (· ≤ ·) ∧
      (∀ m ∈ db.ticket_messages, m.ticket_id = ticketId →
        (⟨m.id, m.staff, m.message, m.time⟩ : TicketMessage) ∈ tk.Messages) ∧
      (∀ tm ∈ tk.Messages, ∃ m ∈ db.ticket_messages,
        m.ticket_id = ticketId ∧ tm = ⟨m.id, m.staff, m.message, m.time⟩) := by
    intro tk htk
    unfold ticketDetails at htk
    split at htk
    · rename_i t heq
      rw [Option.some.injEq] at htk
      subst htk
      cases staff with
      | true =>
          rw [if_pos rfl] at heq
          have htrow : t ∈ db.tickets.filter (fun s => s.id == ticketId) := by
            rw [heq]
            exact List.mem_cons_self t []
          have htmem := List.mem_filter.1 htrow
          exact ⟨⟨t, htmem.1, by simpa using htmem.2, by simp, rfl,
            rfl, rfl, rfl⟩, messagesThread_pairwise db ticketId,
            fun m hm hid => messagesThread_mem db ticketId m hm hid,
            fun tm htm => messagesThread_src db ticketId tm htm⟩
      | false =>
          rw [if_neg (by simp)] at heq
          have htrow : t ∈ db.tickets.filter
              (fun s => s.user_id == userId && s.id == ticketId) := by
            rw [heq]
            exact List.mem_cons_self t []
          have htmem := List.mem_filter.1 htrow
          have hpred : t.user_id = userId ∧ t.id = ticketId := by
            simpa using htmem.2
          exact ⟨⟨t, htmem.1, hpred.2, fun _ => hpred.1, rfl, rfl,
            rfl, rfl⟩, messagesThread_pairwise db ticketId,
            fun m hm hid => messagesThread_mem db ticketId m hm hid,
            fun tm htm => messagesThread_src db ticketId tm htm⟩
    · simp at htk
  refine ⟨hmain, ?_, ?_⟩
  · intro hstaff t ht htid
    subst hstaff
    have hfilter : db.tickets.filter (fun s => s.id == ticketId) = [t] :=
      filter_key_eq_singleton TicketRow.id hnd ht _
        (fun s => by rw [htid]; exact beq_iff_eq)
    refine ⟨{ scanTicket t with Messages := messagesThread db ticketId },
      ?_, rfl⟩
    unfold ticketDetails
    rw [if_pos rfl, hfilter]
  · intro hstaff tk htk
    obtain ⟨⟨t, _, _, howner, _, hUser, _, _⟩, _⟩ := hmain tk htk
    rw [hUser]
    exact howner hstaff

/-- C7 witness: staff access to another user's ticket, and owner-scoped
customer access, on the concrete database. -/
theorem claim_C7_witness :
    (∃ tk, ticketDetails dbW 99 1 true = some tk ∧ tk.UserId = 7) ∧
    (∀ tk, ticketDetails dbW 7 1 false = some tk → tk.UserId = 7) :=
  ⟨(claim_C7_ticket_details dbW 99 1 true (by decide)).2.1 rfl
     ⟨1, 7, "Help", "open", 0, 0⟩ (by simp [dbW]) rfl,
   (claim_C7_ticket_details dbW 7 1 false (by decide)).2.2 rfl⟩

/-! ## Plan catalog lemmas -/

theorem mem_leftJoinRegion (db : PlanDB) (region : String)
    (x : PlanRow × Option String) :
    x ∈ leftJoinRegion db region ↔
      x.1 ∈ db.plans ∧
      ((x.2 = none ∧ ¬ hasBinding db x.1.id region) ∨
        ∃ rp ∈ db.region_plans, rp.plan_id = x.1.id ∧ rp.region = region ∧
          x.2 = some rp.identification) := by
  unfold leftJoinRegion
  rw [List.mem_flatMap]
  constructor
  · rintro ⟨p, hp, hx⟩
    by_cases hempty : (db.region_plans.filter
        (fun rp => rp.plan_id == p.id && rp.region == region)).isEmpty = true
    · rw [if_pos hempty] at hx
      rcases List.mem_singleton.1 hx with rfl
      refine ⟨hp, Or.inl ⟨rfl, ?_⟩⟩
      rintro ⟨rp, hrp, h1, h2⟩
      have : rp ∈ db.region_plans.filter
          (fun rp => rp.plan_id == p.id && rp.region == region) :=
        List.mem_filter.2 ⟨hrp, by simp [h1, h2]⟩
      rw [List.isEmpty_iff.1 hempty] at this
      cases this
    · rw [if_neg hempty] at hx
      rcases List.mem_map.1 hx with ⟨rp, hrp, rfl⟩
      rcases List.mem_filter.1 hrp with ⟨hmem, hpred⟩
      have hpred' : rp.plan_id = p.id ∧ rp.region = region := by
        simpa using hpred
      exact ⟨hp, Or.inr ⟨rp, hmem, hpred'.1, hpred'.2, rfl⟩⟩
  · rintro ⟨hp, hcase | ⟨rp, hrp, h1, h2, h3⟩⟩
    · refine ⟨x.1, hp, ?_⟩
      have hempty : (db.region_plans.filter
          (fun rp => rp.plan_id == x.1.id && rp.region == region)) = [] := by
        rw [List.filter_eq_nil_iff]
        intro rp hrp hpred
        have hpred' : rp.plan_id = x.1.id ∧ rp.region = region := by
          simpa using hpred
        exact hcase.2 ⟨rp, hrp, hpred'⟩
      rw [if_pos (by simp [hempty])]
      rcases x with ⟨x1, x2⟩
      rw [show x2 = none from hcase.1]
      exact List.mem_singleton.2 rfl
    · refine ⟨x.1, hp, ?_⟩
      have hmemf : rp ∈ db.region_plans.filter
          (fun s => s.plan_id == x.1.id && s.region == region) :=
        List.mem_filter.2 ⟨hrp, by simp [h1, h2]⟩
      rw [if_neg (by
        intro hempty
        rw [List.isEmpty_iff.1 hempty] at hmemf
        cases hmemf)]
      rcases x with ⟨x1, x2⟩
      rw [show x2 = some rp.identification from h3]
      exact List.mem_map_of_mem _ hmemf

/-! ## Plan catalog claims -/

/-- C1: `planListRegion r` returns exactly the plans that are enabled and
(global or bound to `r`), with ids in ascending order; disabled plans and
non-global plans without a binding never appear. -/
theorem claim_C1_plan_list_region (db : PlanDB) (region : String)
    (hnodup : (db.plans.map PlanRow.id).Nodup) :
    ((planListRegion db region).map Plan.Id).Pairwise (· ≤ ·) ∧
    (∀ p ∈ db.plans,
      ((∃ q ∈ planListRegion db region, q.Id = p.id) ↔
        (p.enabled = true ∧
          (p.global = true ∨ hasBinding db p.id region)))) ∧
    (∀ q ∈ planListRegion db region, ∃ p ∈ db.plans, q.Id = p.id ∧
      q.Enabled = true ∧ (q.Global = true ∨ hasBinding db p.id region)) := by
  refine ⟨?_, ?_, ?_⟩
  · unfold planListRegion
    rw [List.map_map, List.pairwise_map]
    exact sqlOrderBy_pairwise _ _
  · intro p hp
    constructor
    · rintro ⟨q, hq, hqid⟩
      unfold planListRegion at hq
      rcases List.mem_map.1 hq with ⟨x, hx, rfl⟩
      have hxf := (mem_sqlOrderBy _ _ _).1 hx
      rcases List.mem_filter.1 hxf with ⟨hxjoin, hxpred⟩
      have hxpred' : x.1.enabled = true ∧
          (x.1.global = true ∨ x.2.isSome = true) := by
        simpa using hxpred
      rcases (mem_leftJoinRegion db region x).1 hxjoin with ⟨hx1, hcase⟩
      have hxp : x.1 = p :=
        List.inj_on_of_nodup_map hnodup hx1 hp hqid
      subst hxp
      refine ⟨hxpred'.1, ?_⟩
      rcases hxpred'.2 with hg | hsome
      · exact Or.inl hg
      · rcases hcase with ⟨hnone, _⟩ | ⟨rp, hrp, h1, h2, _⟩
        · rw [hnone] at hsome
          cases hsome
        · exact Or.inr ⟨rp, hrp, h1, h2⟩
    · rintro ⟨hen, hcase⟩
      by_cases hb : hasBinding db p.id region
      · rcases hb with ⟨rp, hrp, h1, h2⟩
        refine ⟨scanPlan p rp.identification, ?_, rfl⟩
        unfold planListRegion
        have hj : (p, some rp.identification) ∈ leftJoinRegion db region :=
          (mem_leftJoinRegion db region (p, some rp.identification)).2
            ⟨hp, Or.inr ⟨rp, hrp, h1, h2, rfl⟩⟩
        have hpred : ((p, some rp.identification).1.enabled &&
            ((p, some rp.identification).1.global ||
              (p, some rp.identification).2.isSome)) = true := by
          simp [hen]
        exact List.mem_map_of_mem _ ((mem_sqlOrderBy _ _ _).2
          (List.mem_filter.2 ⟨hj, hpred⟩))
      · have hg : p.global = true := by
          rcases hcase with hg | hb'
          · exact hg
          · exact absurd hb' hb
        refine ⟨scanPlan p "", ?_, rfl⟩
        unfold planListRegion
        have hj : ((p, none) : PlanRow × Option String) ∈
            leftJoinRegion db region :=
          (mem_leftJoinRegion db region (p, none)).2 ⟨hp, Or.inl ⟨rfl, hb⟩⟩
        have hpred : (((p, none) : PlanRow × Option String).1.enabled &&
            (((p, none) : PlanRow × Option String).1.global ||
              ((p, none) : PlanRow × Option String).2.isSome)) = true := by
          simp [hen, hg]
        exact List.mem_map_of_mem _ ((mem_sqlOrderBy _ _ _).2
          (List.mem_filter.2 ⟨hj, hpred⟩))
  · intro q hq
    unfold planListRegion at hq
    rcases List.mem_map.1 hq with ⟨x, hx, rfl⟩
    have hxf := (mem_sqlOrderBy _ _ _).1 hx
    rcases List.mem_filter.1 hxf with ⟨hxjoin, hxpred⟩
    have hxpred' : x.1.enabled = true ∧
        (x.1.global = true ∨ x.2.isSome = true) := by
      simpa using hxpred
    rcases (mem_leftJoinRegion db region x).1 hxjoin with ⟨hx1, hcase⟩
    refine ⟨x.1, hx1, rfl, hxpred'.1, ?_⟩
    rcases hxpred'.2 with hg | hsome
    · exact Or.inl hg
    · rcases hcase with ⟨hnone, _⟩ | ⟨rp, hrp, h1, h2, _⟩
      · rw [hnone] at hsome
        cases hsome
      · exact Or.inr ⟨rp, hrp, h1, h2⟩

/-- C1 witness: in the concrete catalog, plan 1 is visible in us-east, the
result is id-sorted, and the disabled plan 3 is excluded. -/
theorem claim_C1_witness :
    ((planListRegion dbPlans "us-east").map Plan.Id).Pairwise (· ≤ ·) ∧
    (∃ q ∈ planListRegion dbPlans "us-east", q.Id = 1) ∧
    ¬ (∃ q ∈ planListRegion dbPlans "us-east", q.Id = 3) :=
  ⟨(claim_C1_plan_list_region dbPlans "us-east" (by decide)).1,
   ((claim_C1_plan_list_region dbPlans "us-east" (by decide)).2.1
       ⟨1, "Starter", 500, 512, 1, 10, 100, false, true⟩
       (by simp [dbPlans])).2
     ⟨rfl, Or.inr ⟨⟨1, "us-east", "ext-123"⟩, by simp [dbPlans], rfl, rfl⟩⟩,
   fun h =>
     by
       have h3 := ((claim_C1_plan_list_region dbPlans "us-east"
           (by decide)).2.1 ⟨3, "Off", 100, 1, 1, 1, 1, true, false⟩
           (by simp [dbPlans])).1 h
       simpa using h3.1⟩

/-- C8: `planDelete` removes only the matching row of the `plans` table and
cascades nothing: `region_plans` and `plan_metadata` are untouched. -/
theorem claim_C8_plan_delete_frame (db : PlanDB) (planId : Nat) :
    (planDelete db planId).region_plans = db.region_plans ∧
    (planDelete db planId).plan_metadata = db.plan_metadata ∧
    (planDelete db planId).plans =
      db.plans.filter (fun p => !(p.id == planId)) :=
  ⟨rfl, rfl, rfl⟩

theorem planAssociateRegion_insert (ri : RegionInterfaces) (db : PlanDB)
    (planId : Nat) (region identification : String)
    (hlook : (riLookup ri region).isNone = false)
    (hcount : (db.region_plans.filter (pairPred planId region)).length ≠ 1) :
    planAssociateRegion ri db planId region identification =
      .ok ⟨db.plans, db.region_plans ++ [⟨planId, region, identification⟩],
        db.plan_metadata, db.nextPlanId⟩ := by
  unfold planAssociateRegion
  rw [if_neg (by simp [hlook])]
  rw [if_neg (by simpa using hcount)]

theorem planAssociateRegion_update (ri : RegionInterfaces) (db : PlanDB)
    (planId : Nat) (region identification : String)
    (hlook : (riLookup ri region).isNone = false)
    (hcount : (db.region_plans.filter (pairPred planId region)).length = 1) :
    planAssociateRegion ri db planId region identification =
      .ok ⟨db.plans,
        db.region_plans.map (fun rp =>
          if pairPred planId region rp then
            { rp with identification := identification }
          else rp),
        db.plan_metadata, db.nextPlanId⟩ := by
  unfold planAssociateRegion
  rw [if_neg (by simp [hlook])]
  rw [if_pos (by simpa using hcount)]

/-- The upsert's `UPDATE` leaves the pair's filtered rows as the updated
originals. -/
theorem filter_pair_map_update (l : List RegionPlanRow)
    (planId : Nat) (region identification : String) :
    (l.map (fun rp =>
      if pairPred planId region rp then
        { rp with identification := identification }
      else rp)).filter (pairPred planId region) =
    (l.filter (pairPred planId region)).map
      (fun rp => { rp with identification := identification }) := by
  rw [List.filter_map]
  have hcong : ∀ rp ∈ l, (pairPred planId region ∘ (fun rp =>
      if pairPred planId region rp then
        { rp with identification := identification }
      else rp)) rp = pairPred planId region rp := by
    intro rp _
    show pairPred planId region
      (if pairPred planId region rp then
        { rp with identification := identification }
      else rp) = pairPred planId region rp
    by_cases hc : pairPred planId region rp = true
    · rw [if_pos hc]
      rfl
    · rw [if_neg hc]
  rw [List.filter_congr hcong]
  have hmap : ∀ rp ∈ l.filter (pairPred planId region),
      (fun rp => if pairPred planId region rp then
        { rp with identification := identification }
      else rp) rp =
      (fun rp => { rp with identification := identification }) rp := by
    intro rp hrp
    have hp := (List.mem_filter.1 hrp).2
    simp [hp]
  exact List.map_congr_left hmap

/-- A row passing the pair predicate is the pair's row up to identification. -/
theorem pairPred_shape (rp : RegionPlanRow) (planId : Nat) (region : String)
    (h : pairPred planId region rp = true) :
    rp = ⟨planId, region, rp.identification⟩ := by
  have h' : rp.plan_id = planId ∧ rp.region = region := by
    simpa [pairPred] using h
  cases rp
  simp only at h'
  rw [h'.1, h'.2]

/-- From a state holding at most one binding row for the pair, a successful
`planAssociateRegion` leaves exactly the one binding row with the given
identification. -/
theorem planAssociateRegion_ok_filter (ri : RegionInterfaces) (db : PlanDB)
    (planId : Nat) (region identification : String)
    (hl' : (riLookup ri region).isNone = false)
    (hle : (db.region_plans.filter (pairPred planId region)).length ≤ 1) :
    ∀ db1, planAssociateRegion ri db planId region identification = .ok db1 →
      db1.region_plans.filter (pairPred planId region) =
        [⟨planId, region, identification⟩] := by
  intro db1 h
  by_cases hc : (db.region_plans.filter (pairPred planId region)).length = 1
  · rcases List.length_eq_one.1 hc with ⟨rp0, hrp0⟩
    have hrp0pred : pairPred planId region rp0 = true :=
      (List.mem_filter.1 (hrp0 ▸ List.mem_cons_self rp0 [])).2
    rw [planAssociateRegion_update ri db planId region identification
      hl' hc] at h
    rw [Except.ok.injEq] at h
    subst h
    show (db.region_plans.map (fun rp =>
        if pairPred planId region rp then
          { rp with identification := identification }
        else rp)).filter (pairPred planId region) = _
    rw [filter_pair_map_update, hrp0,
      pairPred_shape rp0 planId region hrp0pred]
    rfl
  · have hc0 : (db.region_plans.filter (pairPred planId region)).length = 0 :=
      by omega
    have hnil : db.region_plans.filter (pairPred planId region) = [] :=
      List.length_eq_zero.1 hc0
    rw [planAssociateRegion_insert ri db planId region identification
      hl' hc] at h
    rw [Except.ok.injEq] at h
    subst h
    show (db.region_plans ++
        [(⟨planId, region, identification⟩ : RegionPlanRow)]).filter
        (pairPred planId region) = _
    rw [List.filter_append, hnil]
    simp [pairPred]

/-- C4: `planAssociateRegion` fails with the unknown-region error exactly when
the region is not registered, and from a state with at most one binding row
for the pair, two successive calls with the same arguments leave exactly one
binding row carrying the given identification. -/
theorem claim_C4_associate_region
    (ri : RegionInterfaces) (db : PlanDB) (planId : Nat)
    (region identification : String) :
    ((∃ e, planAssociateRegion ri db planId region identification =
        .error e) ↔ riLookup ri region = none) ∧
    (∀ e, planAssociateRegion ri db planId region identification =
        .error e →
      e = .raw ("specified region " ++ region ++ " does not exist")) ∧
    ((db.region_plans.filter (pairPred planId region)).length ≤ 1 →
      ∀ db1 db2,
        planAssociateRegion ri db planId region identification = .ok db1 →
        planAssociateRegion ri db1 planId region identification = .ok db2 →
        db2.region_plans.filter (pairPred planId region) =
          [⟨planId, region, identification⟩]) := by
  have herr : ∀ (d : PlanDB), (riLookup ri region).isNone = true →
      planAssociateRegion ri d planId region identification =
        .error (.raw ("specified region " ++ region ++ " does not exist")) := by
    intro d hl
    unfold planAssociateRegion
    rw [if_pos hl]
  refine ⟨⟨?_, ?_⟩, ?_, ?_⟩
  · rintro ⟨e, he⟩
    by_cases hl : (riLookup ri region).isNone = true
    · exact Option.isNone_iff_eq_none.1 hl
    · have hl' : (riLookup ri region).isNone = false :=
        Bool.not_eq_true _ ▸ hl
      by_cases hc : (db.region_plans.filter (pairPred planId region)).length = 1
      · rw [planAssociateRegion_update ri db planId region identification
          hl' hc] at he
        cases he
      · rw [planAssociateRegion_insert ri db planId region identification
          hl' hc] at he
        cases he
  · intro hl
    exact ⟨.raw ("specified region " ++ region ++ " does not exist"),
      herr db (Option.isNone_iff_eq_none.2 hl)⟩
  · intro e he
    by_cases hl : (riLookup ri region).isNone = true
    · rw [herr db hl] at he
      exact (Except.error.injEq _ _ ▸ he).symm ▸ rfl
    · have hl' : (riLookup ri region).isNone = false :=
        Bool.not_eq_true _ ▸ hl
      by_cases hc : (db.region_plans.filter (pairPred planId region)).length = 1
      · rw [planAssociateRegion_update ri db planId region identification
          hl' hc] at he
        cases he
      · rw [planAssociateRegion_insert ri db planId region identification
          hl' hc] at he
        cases he
  · intro hle db1 db2 h1 h2
    by_cases hl : (riLookup ri region).isNone = true
    · rw [herr db hl] at h1
      cases h1
    · have hl' : (riLookup ri region).isNone = false :=
        Bool.not_eq_true _ ▸ hl
      have hf1 := planAssociateRegion_ok_filter ri db planId region
        identification hl' hle db1 h1
      have hle1 : (db1.region_plans.filter (pairPred planId region)).length
          ≤ 1 := by
        rw [hf1]
        simp
      exact planAssociateRegion_ok_filter ri db1 planId region
        identification hl' hle1 db2 h2

/-- C4 witness: on the concrete catalog, associating twice leaves exactly the
one binding row. -/
theorem claim_C4_witness :
    dbP1.region_plans.filter (pairPred 1 "us-east") =
      [⟨1, "us-east", "ext-9"⟩] :=
  (claim_C4_associate_region riW
      ⟨[⟨1, "Starter", 500, 512, 1, 10, 100, false, true⟩], [], [], 2⟩
      1 "us-east" "ext-9").2.2 (by decide) dbP1 dbP1 rfl rfl

theorem identBound_count (db : PlanDB) (region ident : String) :
    identBound db region ident ↔
      (db.region_plans.filter (identPred region ident)).length ≠ 0 := by
  constructor
  · rintro ⟨rp, hrp, h1, h2⟩ h0
    have hmem : rp ∈ db.region_plans.filter (identPred region ident) :=
      List.mem_filter.2 ⟨hrp, by simp [identPred, h1, h2]⟩
    rw [List.length_eq_zero.1 h0] at hmem
    cases hmem
  · intro h
    cases hf : db.region_plans.filter (identPred region ident) with
    | nil =>
        exact absurd (by rw [hf]; rfl) h
    | cons rp rest =>
        have hrp : rp ∈ db.region_plans.filter (identPred region ident) := by
          rw [hf]
          exact List.mem_cons_self _ _
        rcases List.mem_filter.1 hrp with ⟨hmem, hpred⟩
        exact ⟨rp, hmem, by simpa [identPred] using hpred⟩

theorem autopopStep_hit (ri : RegionInterfaces) (region : String)
    (db : PlanDB) (pp : ProviderPlan)
    (hcnt : (db.region_plans.filter (identPred region pp.Identification)).length
      ≠ 0) :
    autopopStep ri region db pp = db := by
  unfold autopopStep
  rw [if_neg (by simpa using hcnt)]

theorem autopopStep_miss (ri : RegionInterfaces) (region : String)
    (db : PlanDB) (pp : ProviderPlan)
    (hlook : (riLookup ri region).isNone = false)
    (hwf : ∀ rp ∈ db.region_plans, rp.plan_id < db.nextPlanId)
    (hcnt : (db.region_plans.filter (identPred region pp.Identification)).length
      = 0) :
    autopopStep ri region db pp =
      ⟨db.plans ++ [⟨db.nextPlanId, pp.Name, pp.Price, pp.Ram, pp.Cpu,
          pp.Storage, pp.Bandwidth, false, true⟩],
       db.region_plans ++ [⟨db.nextPlanId, region, pp.Identification⟩],
       db.plan_metadata, db.nextPlanId + 1⟩ := by
  have hfilter0 : db.region_plans.filter (pairPred db.nextPlanId region)
      = [] := by
    rw [List.filter_eq_nil_iff]
    intro rp hrp hpred
    have h1 : rp.plan_id = db.nextPlanId := by
      have := (by simpa [pairPred] using hpred :
        rp.plan_id = db.nextPlanId ∧ rp.region = region)
      exact this.1
    exact absurd h1 (Nat.ne_of_lt (hwf rp hrp))
  have hcount : ((planCreate db pp.Name pp.Price pp.Ram pp.Cpu pp.Storage
      pp.Bandwidth false).1.region_plans.filter
        (pairPred db.nextPlanId region)).length ≠ 1 := by
    show ((db.region_plans.filter (pairPred db.nextPlanId region)).length ≠ 1)
    rw [hfilter0]
    simp
  have hassoc : planAssociateRegion ri
      (planCreate db pp.Name pp.Price pp.Ram pp.Cpu pp.Storage
        pp.Bandwidth false).1
      (planCreate db pp.Name pp.Price pp.Ram pp.Cpu pp.Storage
        pp.Bandwidth false).2
      region pp.Identification =
      .ok ⟨db.plans ++ [⟨db.nextPlanId, pp.Name, pp.Price, pp.Ram, pp.Cpu,
          pp.Storage, pp.Bandwidth, false, true⟩],
        db.region_plans ++ [⟨db.nextPlanId, region, pp.Identification⟩],
        db.plan_metadata, db.nextPlanId + 1⟩ :=
    planAssociateRegion_insert ri
      (planCreate db pp.Name pp.Price pp.Ram pp.Cpu pp.Storage
        pp.Bandwidth false).1
      db.nextPlanId region pp.Identification hlook hcount
  unfold autopopStep
  rw [if_pos (by simpa using hcnt)]
  simp only [hassoc]

/-- One autopopulate step either finds the identification bound and leaves the
state unchanged, or creates the non-global plan and its binding. -/
theorem autopopStep_cases (ri : RegionInterfaces) (region : String)
    (db : PlanDB) (pp : ProviderPlan)
    (hlook : (riLookup ri region).isNone = false)
    (hwf : ∀ rp ∈ db.region_plans, rp.plan_id < db.nextPlanId) :
    (identBound db region pp.Identification ∧
      autopopStep ri region db pp = db) ∨
    (¬ identBound db region pp.Identification ∧
      autopopStep ri region db pp =
        ⟨db.plans ++ [⟨db.nextPlanId, pp.Name, pp.Price, pp.Ram, pp.Cpu,
            pp.Storage, pp.Bandwidth, false, true⟩],
         db.region_plans ++ [⟨db.nextPlanId, region, pp.Identification⟩],
         db.plan_metadata, db.nextPlanId + 1⟩) := by
  by_cases hb : identBound db region pp.Identification
  · exact Or.inl ⟨hb, autopopStep_hit ri region db pp
      ((identBound_count db region pp.Identification).1 hb)⟩
  · have hcnt : (db.region_plans.filter
        (identPred region pp.Identification)).length = 0 := by
      by_contra hne
      exact hb ((identBound_count db region pp.Identification).2 hne)
    exact Or.inr ⟨hb, autopopStep_miss ri region db pp hlook hwf hcnt⟩

theorem identBound_mono (d d' : PlanDB) (region ident : String)
    (h : identBound d region ident) (l : List RegionPlanRow)
    (hext : d'.region_plans = d.region_plans ++ l) :
    identBound d' region ident := by
  rcases h with ⟨rp, hrp, h1, h2⟩
  exact ⟨rp, by rw [hext]; exact List.mem_append_left _ hrp, h1, h2⟩

/-- The autopopulate loop preserves the id invariant, only appends rows, only
creates non-global plans, and afterwards binds every listed identification. -/
theorem autopopLoop_props (ri : RegionInterfaces) (region : String)
    (pl : List ProviderPlan) :
    ∀ db : PlanDB, (riLookup ri region).isNone = false →
      (∀ rp ∈ db.region_plans, rp.plan_id < db.nextPlanId) →
      (∀ rp ∈ (pl.foldl (autopopStep ri region) db).region_plans,
        rp.plan_id < (pl.foldl (autopopStep ri region) db).nextPlanId) ∧
      (∃ lb, (pl.foldl (autopopStep ri region) db).region_plans =
        db.region_plans ++ lb) ∧
      (∃ lp, (pl.foldl (autopopStep ri region) db).plans = db.plans ++ lp ∧
        ∀ p ∈ lp, p.global = false) ∧
      (∀ pp ∈ pl, identBound (pl.foldl (autopopStep ri region) db) region
        pp.Identification) := by
  induction pl with
  | nil =>
      intro db _ hwf
      exact ⟨hwf, ⟨[], by simp⟩, ⟨[], by simp, by simp⟩, by simp⟩
  | cons pp rest ih =>
      intro db hlook hwf
      have hstep := autopopStep_cases ri region db pp hlook hwf
      have hdb' : (∀ rp ∈ (autopopStep ri region db pp).region_plans,
          rp.plan_id < (autopopStep ri region db pp).nextPlanId) ∧
          (∃ lb0, (autopopStep ri region db pp).region_plans =
            db.region_plans ++ lb0) ∧
          (∃ lp0, (autopopStep ri region db pp).plans = db.plans ++ lp0 ∧
            ∀ p ∈ lp0, p.global = false) ∧
          identBound (autopopStep ri region db pp) region pp.Identification := by
        rcases hstep with ⟨hb, heq⟩ | ⟨_, heq⟩
        · rw [heq]
          exact ⟨hwf, ⟨[], by simp⟩, ⟨[], by simp, by simp⟩, hb⟩
        · rw [heq]
          refine ⟨?_, ⟨_, rfl⟩, ⟨_, rfl, ?_⟩, ?_⟩
          · intro rp hrp
            rcases List.mem_append.1 hrp with h | h
            · exact Nat.lt_succ_of_lt (hwf rp h)
            · rcases List.mem_singleton.1 h with rfl
              exact Nat.lt_succ_self _
          · intro p hp
            rcases List.mem_singleton.1 hp with rfl
            rfl
          · exact ⟨⟨db.nextPlanId, region, pp.Identification⟩,
              List.mem_append_right _ (List.mem_singleton.2 rfl), rfl, rfl⟩
      obtain ⟨hwf', ⟨lb0, hlb0⟩, ⟨lp0, hlp0, hg0⟩, hbound'⟩ := hdb'
      obtain ⟨hwfF, ⟨lb1, hlb1⟩, ⟨lp1, hlp1, hg1⟩, hcoverF⟩ :=
        ih (autopopStep ri region db pp) hlook hwf'
      have hfold : (pp :: rest).foldl (autopopStep ri region) db =
          rest.foldl (autopopStep ri region) (autopopStep ri region db pp) :=
        rfl
      rw [hfold]
      refine ⟨hwfF, ⟨lb0 ++ lb1, by rw [hlb1, hlb0, List.append_assoc]⟩,
        ⟨lp0 ++ lp1, by rw [hlp1, hlp0, List.append_assoc], ?_⟩, ?_⟩
      · intro p hp
        rcases List.mem_append.1 hp with h | h
        · exact hg0 p h
        · exact hg1 p h
      · intro q hq
        rcases List.mem_cons.1 hq with rfl | h
        · exact identBound_mono _ _ region q.Identification hbound' lb1 hlb1
        · exact hcoverF q h

/-- If every listed identification is already bound, the loop is a no-op. -/
theorem autopopLoop_noop (ri : RegionInterfaces) (region : String)
    (pl : List ProviderPlan) :
    ∀ db : PlanDB, (∀ pp ∈ pl, identBound db region pp.Identification) →
      pl.foldl (autopopStep ri region) db = db := by
  induction pl with
  | nil => intro db _; rfl
  | cons pp rest ih =>
      intro db h
      have hstep : autopopStep ri region db pp = db :=
        autopopStep_hit ri region db pp
          ((identBound_count db region pp.Identification).1
            (h pp (List.mem_cons_self _ _)))
      show rest.foldl (autopopStep ri region) (autopopStep ri region db pp) = db
      rw [hstep]
      exact ih db (fun q hq => h q (List.mem_cons_of_mem _ hq))

/-- C5: for a recognized region whose provider enumerates a fixed plan list,
`planAutopopulate` succeeds, afterwards every listed identification is bound
in the region, every plan it created is non-global, and running it again
returns the same state — zero new plan rows and zero new binding rows. -/
theorem claim_C5_autopopulate_idempotent
    (ri : RegionInterfaces) (db : PlanDB) (region : String)
    (pl : List ProviderPlan)
    (hri : riLookup ri region = some (.withPlans (.ok pl)))
    (hwf : ∀ rp ∈ db.region_plans, rp.plan_id < db.nextPlanId) :
    ∃ db1, planAutopopulate ri db region = .ok db1 ∧
      planAutopopulate ri db1 region = .ok db1 ∧
      (∀ pp ∈ pl, identBound db1 region pp.Identification) ∧
      (∃ created, db1.plans = db.plans ++ created ∧
        ∀ p ∈ created, p.global = false) := by
  have hlook : (riLookup ri region).isNone = false := by
    rw [hri]
    rfl
  have h1 : planAutopopulate ri db region =
      .ok (pl.foldl (autopopStep ri region) db) := by
    unfold planAutopopulate
    rw [hri]
  obtain ⟨hwf1, ⟨lb, hlb⟩, ⟨lp, hlp, hg⟩, hcover⟩ :=
    autopopLoop_props ri region pl db hlook hwf
  refine ⟨pl.foldl (autopopStep ri region) db, h1, ?_, hcover, ⟨lp, hlp, hg⟩⟩
  have h2 : planAutopopulate ri (pl.foldl (autopopStep ri region) db) region =
      .ok (pl.foldl (autopopStep ri region)
        (pl.foldl (autopopStep ri region) db)) := by
    unfold planAutopopulate
    rw [hri]
  rw [h2, autopopLoop_noop ri region pl _ hcover]

/-- C5 witness: autopopulating us-east from the empty catalog creates the one
non-global plan and is a no-op the second time. -/
theorem claim_C5_witness :
    ∃ db1, planAutopopulate riW ⟨[], [], [], 1⟩ "us-east" = .ok db1 ∧
      planAutopopulate riW db1 "us-east" = .ok db1 ∧
      (∀ pp ∈ [(⟨"S", 500, 512, 1, 10, 100, "ext-1"⟩ : ProviderPlan)],
        identBound db1 "us-east" pp.Identification) ∧
      (∃ created, db1.plans = ([] : List PlanRow) ++ created ∧
        ∀ p ∈ created, p.global = false) :=
  claim_C5_autopopulate_idempotent riW ⟨[], [], [], 1⟩ "us-east"
    [⟨"S", 500, 512, 1, 10, 100, "ext-1"⟩] rfl (by simp)

end Lobster
